import Mathlib

/-!
Verification development for the tcptop repository (crutcha/tcptop).

The Rust sources are shallowly embedded below:
* `src/tcpdiag.rs` — the netlink socket-diagnostics client (`TCPInfo`,
  `DiagWithInode`, `addr`, `diag_with_node`, `gather_sockets`, `TCP_STATE`);
* `src/table.rs` — the history/row engine (`SocketHistory`, `friendly_transfer_str`,
  `StatefulTable` with `refresh`, `gen_socket_string_vector`, `next`, `previous`).

Modelling conventions:
* Machine integers (u8/u16/u32/u64/usize) are `Nat`.  Rust's `-` on unsigned
  integers is a program error on underflow (checked builds abort); it is
  modelled by `checkedSub`, whose `.error .panicked` outcome stands for the
  abort.  No claim below depends on the wrap-around value of a release build.
* Every `.unwrap()` / `panic!` in the source is modelled as the
  `Except.error Panic.panicked` outcome: it denotes process termination,
  never a recoverable error value.
* `VecDeque` is a `List` (push_front = cons, `truncate n` = `take n`,
  `[0]` = head, panicking when the deque is empty).
* The netlink channel is modelled by the list of items `recv` would yield
  (`RecvItem`); opening the socket and sending the request are modelled by
  two booleans saying whether those calls succeed.
* The resolver thread and its mpsc channel only affect which *name string*
  appears in a row; the shared cache is modelled as the association list
  `name_lookups` read during a refresh (a cache miss enqueues the address —
  a side effect invisible in the produced rows — and uses the literal form).
-/

/-- A Rust panic / `.unwrap()` on an error: the process aborts. -/
inductive Panic where
  | panicked
deriving DecidableEq, Repr

/-- Rust unsigned subtraction: underflow is a program error (checked builds
abort); otherwise the mathematical difference. -/
def checkedSub (a b : Nat) : Except Panic Nat :=
  if b ≤ a then .ok (a - b) else .error .panicked

/-- Model of `struct TCPInfo` of src/tcpdiag.rs, all fields (numeric fields as `Nat`,
the two-byte padding field as a pair). -/
structure TCPInfo where
  tcpi_state           : Nat := 0
  tcpi_ca_state        : Nat := 0
  tcpi_retransmits     : Nat := 0
  tcpi_probes          : Nat := 0
  tcpi_backoff         : Nat := 0
  tcpi_options         : Nat := 0
  bitfield_1           : Nat × Nat := (0, 0)
  tcpi_rto             : Nat := 0
  tcpi_ato             : Nat := 0
  tcpi_snd_mss         : Nat := 0
  tcpi_rcv_mss         : Nat := 0
  tcpi_unacked         : Nat := 0
  tcpi_sacked          : Nat := 0
  tcpi_lost            : Nat := 0
  tcpi_retrans         : Nat := 0
  tcpi_fackets         : Nat := 0
  tcpi_last_data_sent  : Nat := 0
  tcpi_last_ack_sent   : Nat := 0
  tcpi_last_data_recv  : Nat := 0
  tcpi_last_ack_recv   : Nat := 0
  tcpi_pmtu            : Nat := 0
  tcpi_rcv_ssthresh    : Nat := 0
  tcpi_rtt             : Nat := 0
  tcpi_rttvar          : Nat := 0
  tcpi_snd_ssthresh    : Nat := 0
  tcpi_snd_cwnd        : Nat := 0
  tcpi_advmss          : Nat := 0
  tcpi_reordering      : Nat := 0
  tcpi_rcv_rtt         : Nat := 0
  tcpi_rcv_space       : Nat := 0
  tcpi_total_retrans   : Nat := 0
  tcpi_pacing_rate     : Nat := 0
  tcpi_max_pacing_rate : Nat := 0
  tcpi_bytes_acked     : Nat := 0
  tcpi_bytes_received  : Nat := 0
  tcpi_segs_out        : Nat := 0
  tcpi_segs_in         : Nat := 0
  tcpi_notsent_bytes   : Nat := 0
  tcpi_min_rtt         : Nat := 0
  tcpi_data_segs_in    : Nat := 0
  tcpi_data_segs_out   : Nat := 0
  tcpi_delivery_rate   : Nat := 0
  tcpi_busy_time       : Nat := 0
  tcpi_rwnd_limited    : Nat := 0
  tcpi_sndbuf_limited  : Nat := 0
  tcpi_delivered       : Nat := 0
  tcpi_delivered_ce    : Nat := 0
  tcpi_bytes_sent      : Nat := 0
  tcpi_bytes_retrains  : Nat := 0
deriving DecidableEq, Repr, Inhabited

/-- Model of `std::net::IpAddr`: a V4 address carries its 4 octets, a V6 address its
16 bytes. -/
inductive IpAddr where
  | v4 (octets : List Nat)
  | v6 (octets : List Nat)
deriving DecidableEq, Repr

/-- Model of `std::net::SocketAddr` (ip + port). -/
structure SocketAddr where
  ip : IpAddr
  port : Nat
deriving DecidableEq, Repr

/-- Model of `struct DiagWithInode` of src/tcpdiag.rs. -/
structure DiagWithInode where
  family : Nat
  src : SocketAddr
  dst : SocketAddr
  state : Nat
  inode : Nat
  info : Option TCPInfo
deriving DecidableEq, Repr

/-- One netlink `inet_diag_msg` response, restricted to the fields the
source reads: family, state, inode, the two endpoints (each a 16-byte
buffer plus a big-endian port word), and the parsed `INET_DIAG_INFO`
extension `msg.info()` (absent when the attribute is missing). -/
structure InetDiagMsg where
  idiag_family : Nat
  idiag_state : Nat
  idiag_sport : Nat
  idiag_dport : Nat
  idiag_src : List Nat
  idiag_dst : List Nat
  idiag_inode : Nat
  info : Option TCPInfo
deriving DecidableEq, Repr

/-- Model of `nell::err::Invalid`, restricted to the variant the source mentions. -/
inductive Invalid where
  | family (f : Nat)
deriving DecidableEq, Repr

/-- The constant `AF_INET` (imported from `nell::ffi::core` in the source). -/
def AF_INET : Nat := 2

/-- The kernel's IPv6 family tag.  NOTE: the source *uses* the identifier
`AF_INET6` in a match pattern inside `addr` but never imports it, so in the
Rust code that identifier is a fresh binding that matches every value; this
constant only names the conventional tag value 10 for the statements below. -/
def AF_INET6 : Nat := 10

/-- Model of `u16::to_be` on a little-endian host: swap the two bytes of a 16-bit
word (the header stores ports big-endian). -/
def u16_to_be (p : Nat) : Nat := (p % 256) * 256 + (p / 256) % 256

/-- Model of `fn addr` of src/tcpdiag.rs.  The transmute of `&[u32; 4]` to
`&[u8; 16]` is modelled by taking the 16-byte buffer directly.  Because the
identifier `AF_INET6` is not in scope in the source, the second match arm is
an irrefutable binding: every family other than `AF_INET` takes the 16-byte
IPv6 path, and the `Err(Invalid::Family(..))` arm is unreachable dead code. -/
def addr (family : Nat) (octets : List Nat) (port : Nat) : Except Invalid SocketAddr :=
  if family = AF_INET then
    .ok ⟨IpAddr.v4 (octets.take 4), u16_to_be port⟩
  else
    .ok ⟨IpAddr.v6 octets, u16_to_be port⟩

/-- Model of `fn diag_with_node` of src/tcpdiag.rs. -/
def diag_with_node (msg : InetDiagMsg) : Except Invalid DiagWithInode :=
  match addr msg.idiag_family msg.idiag_src msg.idiag_sport with
  | .error e => .error e
  | .ok src =>
    match addr msg.idiag_family msg.idiag_dst msg.idiag_dport with
    | .error e => .error e
    | .ok dst =>
      .ok { family := msg.idiag_family, src := src, dst := dst,
            state := msg.idiag_state, inode := msg.idiag_inode, info := msg.info }

/-- One item produced by `socket.recv::<inet_diag_msg>()`:
a decoded message, a terminal item (any `Netlink` variant other than `Msg`,
which ends the dump loop), or a receive error (which the source unwraps). -/
inductive RecvItem where
  | msg (m : InetDiagMsg)
  | done
  | fail
deriving DecidableEq, Repr

/-- The receive loop of `fn gather_sockets` (src/tcpdiag.rs lines 126-140):
every fallible step is `.unwrap()`ed, so a receive error or a decode error
aborts; a socket is kept only when the `INET_DIAG_INFO` extension is present
and its `tcpi_state` is not 10 (LISTEN). -/
def gather_loop : List RecvItem → List DiagWithInode → Except Panic (List DiagWithInode)
  | [], acc => .ok acc
  | .done :: _, acc => .ok acc
  | .fail :: _, _ => .error .panicked
  | .msg m :: rest, acc =>
    match diag_with_node m with
    | .error _ => .error .panicked
    | .ok sockdiag =>
      match sockdiag.info with
      | some info =>
        if info.tcpi_state ≠ 10 then gather_loop rest (acc ++ [sockdiag])
        else gather_loop rest acc
      | none => gather_loop rest acc

/-- Model of `fn gather_sockets` of src/tcpdiag.rs.  `openOk` models whether
`Socket::new(Family::INET_DIAG)` succeeds and `sendOk` whether
`socket.send(&msg)` succeeds; both results are `.unwrap()`ed in the source,
so a failure aborts the process instead of being returned. -/
def gather_sockets (openOk sendOk : Bool) (chan : List RecvItem) :
    Except Panic (List DiagWithInode) :=
  if openOk then
    if sendOk then gather_loop chan []
    else .error .panicked
  else .error .panicked

/-- Model of `enum TCP_STATE` of src/tcpdiag.rs. -/
inductive TCP_STATE where
  | UNKNOWN | ESTABLISHED | SYN_SENT | SYN_RECV | FIN_WAIT1 | FIN_WAIT2
  | TIME_WAIT | CLOSE | CLOSE_WAIT | LAST_ACK | LISTEN | CLOSING
  | NEW_SYN_REC | MAX_STATES
deriving DecidableEq, Repr

/-- Model of `TCP_STATE::from_u8`: total on 1..=13, `panic!("dont do it")` otherwise. -/
def TCP_STATE.from_u8 (state : Nat) : Except Panic TCP_STATE :=
  match state with
  | 1 => .ok .ESTABLISHED
  | 2 => .ok .SYN_SENT
  | 3 => .ok .SYN_RECV
  | 4 => .ok .FIN_WAIT1
  | 5 => .ok .FIN_WAIT2
  | 6 => .ok .TIME_WAIT
  | 7 => .ok .CLOSE
  | 8 => .ok .CLOSE_WAIT
  | 9 => .ok .LAST_ACK
  | 10 => .ok .LISTEN
  | 11 => .ok .CLOSING
  | 12 => .ok .NEW_SYN_REC
  | 13 => .ok .MAX_STATES
  | _ => .error .panicked

/-- Model of `TCP_STATE::to_string`. -/
def TCP_STATE.to_string : TCP_STATE → String
  | .UNKNOWN => "UNKNOWN"
  | .ESTABLISHED => "ESTABLISHED"
  | .SYN_SENT => "SYN_SENT"
  | .SYN_RECV => "SYN_RECV"
  | .FIN_WAIT1 => "FIN_WAIT1"
  | .FIN_WAIT2 => "FIN_WAIT2"
  | .TIME_WAIT => "TIME_WAIT"
  | .CLOSE => "CLOSE"
  | .CLOSE_WAIT => "CLOSE_WAIT"
  | .LAST_ACK => "LAST_ACK"
  | .LISTEN => "LISTEN"
  | .CLOSING => "CLOSING"
  | .NEW_SYN_REC => "NEW_SYN_REC"
  | .MAX_STATES => "MAX_STATES"

/-! ## src/table.rs — history and display-row engine -/

/-- The constant `HISTORY_RETENTION` of src/table.rs. -/
def HISTORY_RETENTION : Nat := 30

/-- Model of `struct SocketHistory` of src/table.rs (each `VecDeque` a list,
newest sample first). -/
structure SocketHistory where
  send_bps : List Nat
  recv_bps : List Nat
  send_bytes : List Nat
  recv_bytes : List Nat
  packet_loss : List Nat
  congestion_window : List Nat
deriving DecidableEq, Repr

/-- Model of `SocketHistory::new` (src/table.rs lines 28-46): seed with zero rates
and the snapshot's current cumulative byte counters.  The `size` argument
only pre-sizes the deques in the source (`with_capacity`) and has no
observable effect on the contents. -/
def SocketHistory.new (_size : Nat) (tci : TCPInfo) : SocketHistory :=
  { send_bps := [0]
    recv_bps := [0]
    send_bytes := [tci.tcpi_bytes_sent]
    recv_bytes := [tci.tcpi_bytes_received]
    packet_loss := [0]
    congestion_window := [0] }

/-- Model of `fn is_bps` (the source compares the `f64` cast of the rate;
a `u64` below 2^53 converts exactly, and a rate at or above 2^53 is so far
above both thresholds that its rounded cast compares identically, so the
exact comparison is the same comparison). -/
def is_bps (n : ℚ) : Bool := n < 1000

/-- Model of `fn is_kbps`. -/
def is_kbps (n : ℚ) : Bool := 1000 ≤ n ∧ n < 1000000

/-- Model of `fn is_mbps`. -/
def is_mbps (n : ℚ) : Bool := 1000000 ≤ n

/-- Round `a / b` to the nearest integer, ties to even: the IEEE-754
default rounding, and also the rounding Rust's float formatting applies at
an exact decimal tie.  Stated over an explicit fraction so it evaluates by
integer arithmetic. -/
def roundHalfEvenNat (a b : Nat) : Nat :=
  let q := a / b
  let r := a % b
  if 2 * r < b then q
  else if b < 2 * r then q + 1
  else if q % 2 = 0 then q else q + 1

/-- The value `num * 100 / den` rounded to the nearest integer, ties to
even. -/
def roundHundredthsHalfEven (num den : Nat) : Nat :=
  roundHalfEvenNat (num * 100) den

/-- Floor of the base-2 logarithm, written with explicit fuel so that it
reduces by kernel computation; the recursion halves its argument, so the
argument itself is enough fuel. -/
def log2Aux : Nat → Nat → Nat
  | 0, _ => 0
  | fuel + 1, n => if 2 ≤ n then log2Aux fuel (n / 2) + 1 else 0

def floorLog2 (n : Nat) : Nat := log2Aux n n

/-- The IEEE-754 binary64 value nearest to `num / den` (round to nearest,
ties to even), returned as an exact — unreduced — fraction: the true
quotient is scaled so that its 53-bit mantissa window is an integer range,
rounded half-to-even there, and scaled back.  Faithful for values ≥ 1
(every value reaching it below is ≥ 1, far from subnormals and overflow)
and for 0. -/
def fl64 (num den : Nat) : Nat × Nat :=
  if num = 0 then (0, 1)
  else
    let E := floorLog2 (num / den)
    if E ≤ 52 then
      let sh := 2 ^ (52 - E)
      (roundHalfEvenNat (num * sh) den, sh)
    else
      let sh := 2 ^ (E - 52)
      (roundHalfEvenNat num (den * sh) * sh, 1)

/-- Rust's `n as f64` for an unsigned integer: round to nearest, ties to
even (exact below 2^53). -/
def f64OfNat (n : Nat) : Nat × Nat := fl64 n 1

/-- IEEE-754 binary64 division of two nonnegative doubles (each given as
its exact fraction): the exact quotient, correctly rounded. -/
def f64Div (x y : Nat × Nat) : Nat × Nat := fl64 (x.1 * y.2) (x.2 * y.1)

/-- Render the nonnegative value `num / den` with exactly two decimal
places, ties to even: the effect of Rust's `format!("{:.2}", x)` on a
float whose exact value is `num / den`.  (Rust's fixed-precision float
formatting rounds the exact decimal value of the double, ties to even:
`format!("{:.0}", 2.5)` is `"2"`.) -/
def fmtTwoDecimals (num den : Nat) : String :=
  let n := roundHundredthsHalfEven num den
  toString (n / 100) ++ "." ++ (if n % 100 < 10 then "0" else "") ++ toString (n % 100)

/-- Model of `fn friendly_transfer_str` (src/table.rs lines 53-61).  In the
`bps` arm the source prints the `f64` with `{}`, which for a whole number
below 1000 prints exactly the integer digits.  In the other arms the
source formats `rate/1000.0` (resp. `rate/1000000.0`) with `{:.2}`: the
`u64` is converted to binary64, divided by the exactly representable
constant with correct rounding (`f64Div` after `f64OfNat`), and the
resulting double's exact value is rendered to two decimals — so at a
decimal tie of the true quotient the printed string follows the double,
e.g. rate 2675 prints "2.67 kbps" because the double nearest 2.675 lies
below it. -/
def friendly_transfer_str (rate : Nat) : String :=
  let r : ℚ := (rate : ℚ)
  if is_bps r then toString rate ++ " bps"
  else if is_kbps r then
    let q := f64Div (f64OfNat rate) (1000, 1)
    fmtTwoDecimals q.1 q.2 ++ " kbps"
  else if is_mbps r then
    let q := f64Div (f64OfNat rate) (1000000, 1)
    fmtTwoDecimals q.1 q.2 ++ " mbps"
  else ""

/-- Textual form of an address, abstracting `std`'s `Display` for
`IpAddr` (the dotted-quad form for V4; the V6 rendering's exact textual
form is irrelevant to every claim, any injective rendering serves). -/
def ipString : IpAddr → String
  | .v4 octets => String.intercalate "." (octets.map toString)
  | .v6 octets => String.intercalate ":" (octets.map toString)

/-- The shared reverse-name cache (`name_lookups`), as read during one
refresh: an association list from address to resolved name. -/
abbrev NameCache := List (IpAddr × String)

def cacheGet : NameCache → IpAddr → Option String
  | [], _ => none
  | (ip, name) :: rest, ip' => if ip = ip' then some name else cacheGet rest ip'

/-- The per-endpoint name choice of src/table.rs lines 166-179: a cache hit
uses the stored record, a miss sends the address to the resolver channel (a
side effect not visible in the produced row) and uses the literal form. -/
def nameFor (cache : NameCache) (ip : IpAddr) : String :=
  match cacheGet cache ip with
  | some record => record
  | none => ipString ip

/-- The history map `history: HashMap<u32, SocketHistory>`, modelled as an
association list keyed by inode (the source only ever gets and inserts). -/
abbrev HistMap := List (Nat × SocketHistory)

def histGet : HistMap → Nat → Option SocketHistory
  | [], _ => none
  | (k, h) :: rest, k' => if k = k' then some h else histGet rest k'

def histSet : HistMap → Nat → SocketHistory → HistMap
  | [], k', h' => [(k', h')]
  | (k, h) :: rest, k', h' =>
    if k = k' then (k', h') :: rest else (k, h) :: histSet rest k' h'

/-- The loss computation of src/table.rs lines 137-140: integer division,
guarded against a zero divisor. -/
def lossOf (tci : TCPInfo) : Nat :=
  if tci.tcpi_data_segs_out = 0 then 0
  else tci.tcpi_total_retrans / tci.tcpi_data_segs_out

/-- The in-place mutation of one inode's history during
`gen_socket_string_vector` (src/table.rs lines 142-164): push the send and
receive rates (zeroed when the delta equals the full cumulative counter),
the cumulative counters, the loss percentage and the congestion window onto
the front, then truncate every series to `HISTORY_RETENTION`. -/
def SocketHistory.update (hd : SocketHistory) (tci : TCPInfo)
    (send_bps recv_bps : Nat) : SocketHistory :=
  { send_bps :=
      ((if send_bps = tci.tcpi_bytes_sent then 0 else send_bps) :: hd.send_bps).take
        HISTORY_RETENTION
    recv_bps :=
      ((if recv_bps = tci.tcpi_bytes_received then 0 else recv_bps) :: hd.recv_bps).take
        HISTORY_RETENTION
    send_bytes := (tci.tcpi_bytes_sent :: hd.send_bytes).take HISTORY_RETENTION
    recv_bytes := (tci.tcpi_bytes_received :: hd.recv_bytes).take HISTORY_RETENTION
    packet_loss := (lossOf tci :: hd.packet_loss).take HISTORY_RETENTION
    congestion_window :=
      (tci.tcpi_snd_cwnd :: hd.congestion_window).take HISTORY_RETENTION }

/-- The `entry(..).or_insert(SocketHistory::new(..))` lookup of
src/table.rs line 132. -/
def entry0 (hist : HistMap) (inode : Nat) (tci : TCPInfo) : SocketHistory :=
  (histGet hist inode).getD (SocketHistory.new HISTORY_RETENTION tci)

/-- The six strings pushed for one socket (src/table.rs lines 181-188).
The rate and loss cells read index 0 of the just-pushed series; after the
push each series is a cons, so that read cannot fail and is taken with
`headD`. -/
def rowOf (cache : NameCache) (sock : DiagWithInode) (stc : TCP_STATE)
    (h2 : SocketHistory) : List String :=
  [ nameFor cache sock.src.ip ++ ":" ++ toString sock.src.port
  , nameFor cache sock.dst.ip ++ ":" ++ toString sock.dst.port
  , stc.to_string
  , friendly_transfer_str (h2.send_bps.headD 0)
  , friendly_transfer_str (h2.recv_bps.headD 0)
  , toString (h2.packet_loss.headD 0) ++ "%" ]

/-- One iteration of the `for sock in &self.sockets` loop of
`gen_socket_string_vector` (src/table.rs lines 130-190).  The fallible
points of the source, in order: `sock.info.as_ref().unwrap()`; the
`send_bytes[0]` / `recv_bytes[0]` reads (panic on an empty deque); the two
u64 subtractions (underflow aborts); `TCP_STATE::from_u8` (panics outside
1..=13).  All abort the process, so they share the one `Panic` outcome. -/
def genStep (cache : NameCache) (hist : HistMap) (sock : DiagWithInode) :
    Except Panic (HistMap × List String) :=
  match sock.info with
  | none => .error .panicked
  | some tcp_info =>
    let history_data := entry0 hist sock.inode tcp_info
    match history_data.send_bytes, history_data.recv_bytes with
    | sb0 :: _, rb0 :: _ =>
      match checkedSub tcp_info.tcpi_bytes_sent sb0,
            checkedSub tcp_info.tcpi_bytes_received rb0 with
      | .ok send_bps, .ok recv_bps =>
        let h2 := history_data.update tcp_info send_bps recv_bps
        match TCP_STATE.from_u8 tcp_info.tcpi_state with
        | .ok stc => .ok (histSet hist sock.inode h2, rowOf cache sock stc h2)
        | .error e => .error e
      | _, _ => .error .panicked
    | _, _ => .error .panicked

/-- Model of `StatefulTable::gen_socket_string_vector` (src/table.rs lines 128-192):
fold `genStep` over the table's *current* socket list, producing the rows
in the same order and the updated history map. -/
def gen_socket_string_vector (cache : NameCache) :
    HistMap → List DiagWithInode → Except Panic (HistMap × List (List String))
  | hist, [] => .ok (hist, [])
  | hist, sock :: rest =>
    match genStep cache hist sock with
    | .error e => .error e
    | .ok (hist1, row) =>
      match gen_socket_string_vector cache hist1 rest with
      | .error e => .error e
      | .ok (hist2, rows) => .ok (hist2, row :: rows)

/-- Model of `struct StatefulTable` (src/table.rs): `state` is the tui `TableState`
selection, `items` the display rows, plus the socket list, the history map
and the readable side of the name cache. -/
structure StatefulTable where
  selected : Option Nat
  items : List (List String)
  sockets : List DiagWithInode
  history : HistMap
  name_lookups : NameCache
deriving DecidableEq, Repr

/-- Model of `StatefulTable::new` (src/table.rs lines 83-119): gathers once, stores
the socket list, and leaves `items` empty (`TableState::default()` carries
no selection).  The resolver thread spawn is outside the model. -/
def StatefulTable.new (gathered : List DiagWithInode) : StatefulTable :=
  { selected := none, items := [], sockets := gathered, history := [], name_lookups := [] }

/-- Model of `StatefulTable::refresh` (src/table.rs lines 121-126), with the gather
result passed in.  Faithful to the source's order: the rows are generated
from the socket list stored *before* this call (`self.sockets`), and only
afterwards is the newly gathered list installed. -/
def StatefulTable.refresh (gathered : List DiagWithInode) (st : StatefulTable) :
    Except Panic StatefulTable :=
  match gen_socket_string_vector st.name_lookups st.history st.sockets with
  | .error e => .error e
  | .ok (hist, items) =>
    .ok { st with sockets := gathered, items := items, history := hist }

/-- The spec's `rows()` accessor: the UI reads `table.items` directly. -/
def StatefulTable.rows (st : StatefulTable) : List (List String) := st.items

/-- Model of `StatefulTable::next` (src/table.rs lines 194-206).  `items.len() - 1`
is a usize subtraction: on an empty row list it underflows. -/
def StatefulTable.next (st : StatefulTable) : Except Panic StatefulTable :=
  match st.selected with
  | some i =>
    match checkedSub st.items.length 1 with
    | .error e => .error e
    | .ok m => .ok { st with selected := some (if i ≥ m then 0 else i + 1) }
  | none => .ok { st with selected := some 0 }

/-- Model of `StatefulTable::previous` (src/table.rs lines 208-220). -/
def StatefulTable.previous (st : StatefulTable) : Except Panic StatefulTable :=
  match st.selected with
  | some i =>
    if i = 0 then
      match checkedSub st.items.length 1 with
      | .error e => .error e
      | .ok m => .ok { st with selected := some m }
    else .ok { st with selected := some (i - 1) }
  | none => .ok { st with selected := some 0 }

/-- Iterated `refresh`, one gather result per tick. -/
def runRefreshes : List (List DiagWithInode) → StatefulTable → Except Panic StatefulTable
  | [], st => .ok st
  | g :: gs, st =>
    match StatefulTable.refresh g st with
    | .error e => .error e
    | .ok st' => runRefreshes gs st'

/-- Iterated per-tick history updates for a sequence of snapshot sockets
(each list element is the socket as seen on one tick); used to reason about
a single inode refreshed many times. -/
def iterTicks (cache : NameCache) : List DiagWithInode → HistMap → Except Panic HistMap
  | [], hist => .ok hist
  | sock :: rest, hist =>
    match genStep cache hist sock with
    | .error e => .error e
    | .ok (hist', _) => iterTicks cache rest hist'

/-! ## Invariant predicates, traces, and concrete inputs -/

/-- All six series of a history share one positive length. -/
def SocketHistory.aligned (h : SocketHistory) : Prop :=
  0 < h.send_bps.length ∧
  h.recv_bps.length = h.send_bps.length ∧
  h.send_bytes.length = h.send_bps.length ∧
  h.recv_bytes.length = h.send_bps.length ∧
  h.packet_loss.length = h.send_bps.length ∧
  h.congestion_window.length = h.send_bps.length

/-- All six series of a history are within the retention window. -/
def SocketHistory.bounded (h : SocketHistory) : Prop :=
  h.send_bps.length ≤ HISTORY_RETENTION ∧
  h.recv_bps.length ≤ HISTORY_RETENTION ∧
  h.send_bytes.length ≤ HISTORY_RETENTION ∧
  h.recv_bytes.length ≤ HISTORY_RETENTION ∧
  h.packet_loss.length ≤ HISTORY_RETENTION ∧
  h.congestion_window.length ≤ HISTORY_RETENTION

/-- Every entry of the history map is aligned. -/
def MapAligned (m : HistMap) : Prop :=
  ∀ k h, histGet m k = some h → h.aligned

/-- Every entry of the history map is within the retention window. -/
def MapBounded (m : HistMap) : Prop :=
  ∀ k h, histGet m k = some h → h.bounded

/-- A socket record carrying one tick's snapshot for a fixed inode. -/
def mkSock (inode : Nat) (src dst : SocketAddr) (tci : TCPInfo) : DiagWithInode :=
  { family := AF_INET, src := src, dst := dst, state := tci.tcpi_state,
    inode := inode, info := some tci }

/-- The cumulative byte counters never decrease along a snapshot sequence,
starting from the baselines `sb`/`rb` (§3's monotonicity invariant for one
inode's counters). -/
def chainMono (sb rb : Nat) : List TCPInfo → Bool
  | [] => true
  | tci :: rest =>
    decide (sb ≤ tci.tcpi_bytes_sent) && decide (rb ≤ tci.tcpi_bytes_received) &&
      chainMono tci.tcpi_bytes_sent tci.tcpi_bytes_received rest

/-- The rate samples the engine pushes for a sequence of cumulative counter
values, given the recorded baseline `prev` (newest value last). -/
def rateTrace (prev : Nat) : List Nat → List Nat
  | [] => []
  | c :: cs => (if c - prev = c then 0 else c - prev) :: rateTrace c cs

/-- The throughput tiering exactly as the specification words it (§4.2 and
§8): below 1000 the integer magnitude with suffix "bps"; from 1000 up to
(excluding) 1,000,000 the value `r/1000` to two decimals with suffix
"kbps"; from 1,000,000 on the value `r/1000000` to two decimals with
suffix "mbps".  The spec describes this program, so "`r/1000` rendered to
two decimals" is the program's rendering of the binary64 quotient
`r / 1000.0` (its §8 examples are instances of exactly that rendering);
the tier conditions are the spec's exact-arithmetic comparisons. -/
def spec_throughput_format (r : Nat) : String :=
  if r < 1000 then toString r ++ " bps"
  else if r < 1000000 then
    let q := f64Div (f64OfNat r) (1000, 1)
    fmtTwoDecimals q.1 q.2 ++ " kbps"
  else
    let q := f64Div (f64OfNat r) (1000000, 1)
    fmtTwoDecimals q.1 q.2 ++ " mbps"

/-- A minimal concrete snapshot: an ESTABLISHED socket, all counters 0. -/
def tciE : TCPInfo := { tcpi_state := 1 }

/-- A concrete non-listening socket record with inode 5. -/
def sockEst : DiagWithInode :=
  { family := AF_INET, src := ⟨IpAddr.v4 [127, 0, 0, 1], 1000⟩,
    dst := ⟨IpAddr.v4 [127, 0, 0, 1], 2000⟩, state := 1, inode := 5,
    info := some tciE }

/-- A concrete LISTEN-state snapshot and message pair. -/
def tciL : TCPInfo := { tcpi_state := 10 }

/-- A diagnostic message whose embedded snapshot is in LISTEN state. -/
def msgL : InetDiagMsg :=
  { idiag_family := AF_INET, idiag_state := 10, idiag_sport := 20480,
    idiag_dport := 0, idiag_src := List.replicate 16 0,
    idiag_dst := List.replicate 16 0, idiag_inode := 7, info := some tciL }

/-- A diagnostic message whose embedded snapshot is ESTABLISHED. -/
def msgE : InetDiagMsg :=
  { idiag_family := AF_INET, idiag_state := 1, idiag_sport := 20480,
    idiag_dport := 0, idiag_src := List.replicate 16 0,
    idiag_dst := List.replicate 16 0, idiag_inode := 5, info := some tciE }

/-- The record `diag_with_node` produces from `msgE`. -/
def sockDecoded : DiagWithInode :=
  { family := AF_INET, src := ⟨IpAddr.v4 [0, 0, 0, 0], 80⟩,
    dst := ⟨IpAddr.v4 [0, 0, 0, 0], 0⟩, state := 1, inode := 5,
    info := some tciE }

/-! ## Helper lemmas: the history map and the bounded series -/

theorem histGet_histSet_self (m : HistMap) (k : Nat) (v : SocketHistory) :
    histGet (histSet m k v) k = some v := by
  induction m with
  | nil => simp [histSet, histGet]
  | cons e rest ih =>
    obtain ⟨k', h'⟩ := e
    by_cases hk : k' = k
    · simp [histSet, hk, histGet]
    · simp [histSet, hk, histGet, ih]

theorem histGet_histSet_ne (m : HistMap) (k k' : Nat) (v : SocketHistory)
    (h : k ≠ k') : histGet (histSet m k v) k' = histGet m k' := by
  induction m with
  | nil => simp [histSet, histGet, h]
  | cons e rest ih =>
    obtain ⟨k0, h0⟩ := e
    by_cases hk : k0 = k
    · subst hk
      simp [histSet, histGet, h]
    · simp [histSet, hk, histGet, ih]

theorem take_append_take {α : Type} (N : Nat) :
    ∀ (l m : List α) (n : Nat), n ≤ N → (l ++ m.take N).take n = (l ++ m).take n := by
  intro l
  induction l with
  | nil =>
    intro m n hn
    simp [List.take_take, Nat.min_eq_left hn]
  | cons a l ih =>
    intro m n hn
    cases n with
    | zero => simp
    | succ n =>
      simp only [List.cons_append, List.take_succ_cons]
      rw [ih m n (Nat.le_of_succ_le hn)]

theorem new_aligned (sz : Nat) (tci : TCPInfo) : (SocketHistory.new sz tci).aligned := by
  simp [SocketHistory.new, SocketHistory.aligned]

theorem new_lengths (sz : Nat) (tci : TCPInfo) :
    (SocketHistory.new sz tci).send_bps.length = 1 ∧
    (SocketHistory.new sz tci).recv_bps.length = 1 ∧
    (SocketHistory.new sz tci).send_bytes.length = 1 ∧
    (SocketHistory.new sz tci).recv_bytes.length = 1 ∧
    (SocketHistory.new sz tci).packet_loss.length = 1 ∧
    (SocketHistory.new sz tci).congestion_window.length = 1 := by
  simp [SocketHistory.new]

theorem update_aligned (hd : SocketHistory) (tci : TCPInfo) (s r : Nat)
    (h : hd.aligned) : (hd.update tci s r).aligned := by
  obtain ⟨h0, h1, h2, h3, h4, h5⟩ := h
  refine ⟨?_, ?_, ?_, ?_, ?_, ?_⟩ <;>
    simp [SocketHistory.update, List.length_take, h1, h2, h3, h4, h5, HISTORY_RETENTION]

theorem update_bounded (hd : SocketHistory) (tci : TCPInfo) (s r : Nat) :
    (hd.update tci s r).bounded := by
  refine ⟨?_, ?_, ?_, ?_, ?_, ?_⟩ <;>
    simp [SocketHistory.update, List.length_take]

theorem entry0_aligned (hist : HistMap) (inode : Nat) (tci : TCPInfo)
    (h : MapAligned hist) : (entry0 hist inode tci).aligned := by
  unfold entry0
  cases hget : histGet hist inode with
  | none => simpa using new_aligned HISTORY_RETENTION tci
  | some hd => simpa using h inode hd hget

/-! ## Characterizing one `genStep` -/

theorem genStep_intro (cache : NameCache) (hist : HistMap) (sock : DiagWithInode)
    (tci : TCPInfo) (sb0 rb0 : Nat) (sbt rbt : List Nat) (stc : TCP_STATE)
    (hinfo : sock.info = some tci)
    (hsb : (entry0 hist sock.inode tci).send_bytes = sb0 :: sbt)
    (hrb : (entry0 hist sock.inode tci).recv_bytes = rb0 :: rbt)
    (hle1 : sb0 ≤ tci.tcpi_bytes_sent)
    (hle2 : rb0 ≤ tci.tcpi_bytes_received)
    (hst : TCP_STATE.from_u8 tci.tcpi_state = .ok stc) :
    genStep cache hist sock = .ok
      (histSet hist sock.inode
        ((entry0 hist sock.inode tci).update tci
          (tci.tcpi_bytes_sent - sb0) (tci.tcpi_bytes_received - rb0)),
       rowOf cache sock stc
        ((entry0 hist sock.inode tci).update tci
          (tci.tcpi_bytes_sent - sb0) (tci.tcpi_bytes_received - rb0))) := by
  unfold genStep
  rw [hinfo]
  simp only [hsb, hrb, checkedSub, if_pos hle1, if_pos hle2, hst]

theorem genStep_elim (cache : NameCache) (hist : HistMap) (sock : DiagWithInode)
    (hist' : HistMap) (row : List String)
    (h : genStep cache hist sock = .ok (hist', row)) :
    ∃ tci sb0 rb0 sbt rbt stc,
      sock.info = some tci ∧
      (entry0 hist sock.inode tci).send_bytes = sb0 :: sbt ∧
      (entry0 hist sock.inode tci).recv_bytes = rb0 :: rbt ∧
      sb0 ≤ tci.tcpi_bytes_sent ∧
      rb0 ≤ tci.tcpi_bytes_received ∧
      TCP_STATE.from_u8 tci.tcpi_state = .ok stc ∧
      hist' = histSet hist sock.inode
        ((entry0 hist sock.inode tci).update tci
          (tci.tcpi_bytes_sent - sb0) (tci.tcpi_bytes_received - rb0)) ∧
      row = rowOf cache sock stc
        ((entry0 hist sock.inode tci).update tci
          (tci.tcpi_bytes_sent - sb0) (tci.tcpi_bytes_received - rb0)) := by
  unfold genStep at h
  cases hinfo : sock.info with
  | none => rw [hinfo] at h; exact absurd h (by simp)
  | some tci =>
    rw [hinfo] at h
    simp only at h
    cases hsb : (entry0 hist sock.inode tci).send_bytes with
    | nil => rw [hsb] at h; exact absurd h (by simp)
    | cons sb0 sbt =>
      cases hrb : (entry0 hist sock.inode tci).recv_bytes with
      | nil => rw [hsb, hrb] at h; exact absurd h (by simp)
      | cons rb0 rbt =>
        rw [hsb, hrb] at h
        by_cases hle1 : sb0 ≤ tci.tcpi_bytes_sent
        · by_cases hle2 : rb0 ≤ tci.tcpi_bytes_received
          · simp only [checkedSub, if_pos hle1, if_pos hle2] at h
            cases hst : TCP_STATE.from_u8 tci.tcpi_state with
            | error e => rw [hst] at h; exact absurd h (by simp)
            | ok stc =>
              rw [hst] at h
              simp only [Except.ok.injEq, Prod.mk.injEq] at h
              exact ⟨tci, sb0, rb0, sbt, rbt, stc, rfl, hsb, hrb, hle1, hle2, hst,
                h.1.symm, h.2.symm⟩
          · simp [checkedSub, if_pos hle1, if_neg hle2] at h
        · simp only [checkedSub, if_neg hle1] at h
          cases hc : checkedSub tci.tcpi_bytes_received rb0 <;> simp [hc] at h

theorem entry0_of_some (hist : HistMap) (inode : Nat) (tci : TCPInfo)
    (hd : SocketHistory) (h : histGet hist inode = some hd) :
    entry0 hist inode tci = hd := by
  simp [entry0, h]

theorem entry0_of_none (hist : HistMap) (inode : Nat) (tci : TCPInfo)
    (h : histGet hist inode = none) :
    entry0 hist inode tci = SocketHistory.new HISTORY_RETENTION tci := by
  simp [entry0, h]

theorem genStep_MapAligned (cache : NameCache) (hist : HistMap) (sock : DiagWithInode)
    (hist' : HistMap) (row : List String) (hM : MapAligned hist)
    (h : genStep cache hist sock = .ok (hist', row)) : MapAligned hist' := by
  obtain ⟨tci, sb0, rb0, sbt, rbt, stc, _, _, _, _, _, _, hh, _⟩ :=
    genStep_elim cache hist sock hist' row h
  subst hh
  intro k hd hget
  by_cases hk : sock.inode = k
  · subst hk
    rw [histGet_histSet_self] at hget
    obtain rfl := Option.some.inj hget
    exact update_aligned _ _ _ _ (entry0_aligned hist sock.inode tci hM)
  · rw [histGet_histSet_ne _ _ _ _ hk] at hget
    exact hM k hd hget

theorem genStep_MapBounded (cache : NameCache) (hist : HistMap) (sock : DiagWithInode)
    (hist' : HistMap) (row : List String) (hM : MapBounded hist)
    (h : genStep cache hist sock = .ok (hist', row)) : MapBounded hist' := by
  obtain ⟨tci, sb0, rb0, sbt, rbt, stc, _, _, _, _, _, _, hh, _⟩ :=
    genStep_elim cache hist sock hist' row h
  subst hh
  intro k hd hget
  by_cases hk : sock.inode = k
  · subst hk
    rw [histGet_histSet_self] at hget
    obtain rfl := Option.some.inj hget
    exact update_bounded _ _ _ _
  · rw [histGet_histSet_ne _ _ _ _ hk] at hget
    exact hM k hd hget

theorem gen_cons_elim (cache : NameCache) (hist : HistMap) (sock : DiagWithInode)
    (rest : List DiagWithInode) (hist' : HistMap) (rows : List (List String))
    (h : gen_socket_string_vector cache hist (sock :: rest) = .ok (hist', rows)) :
    ∃ hist1 row rows',
      genStep cache hist sock = .ok (hist1, row) ∧
      gen_socket_string_vector cache hist1 rest = .ok (hist', rows') ∧
      rows = row :: rows' := by
  unfold gen_socket_string_vector at h
  split at h
  · exact absurd h (by simp)
  · rename_i hist1 row hg
    split at h
    · exact absurd h (by simp)
    · rename_i hist2 rows' hr
      simp only [Except.ok.injEq, Prod.mk.injEq] at h
      exact ⟨hist1, row, rows', hg, by rw [hr, h.1], h.2.symm⟩

theorem gen_MapAligned (cache : NameCache) :
    ∀ (socks : List DiagWithInode) (hist hist' : HistMap) (rows : List (List String)),
      MapAligned hist →
      gen_socket_string_vector cache hist socks = .ok (hist', rows) →
      MapAligned hist' := by
  intro socks
  induction socks with
  | nil =>
    intro hist hist' rows hM h
    unfold gen_socket_string_vector at h
    simp only [Except.ok.injEq, Prod.mk.injEq] at h
    rw [← h.1]; exact hM
  | cons sock rest ih =>
    intro hist hist' rows hM h
    obtain ⟨hist1, row, rows', hg, hr, _⟩ := gen_cons_elim cache hist sock rest hist' rows h
    exact ih hist1 hist' rows' (genStep_MapAligned cache hist sock hist1 row hM hg) hr

theorem gen_MapBounded (cache : NameCache) :
    ∀ (socks : List DiagWithInode) (hist hist' : HistMap) (rows : List (List String)),
      MapBounded hist →
      gen_socket_string_vector cache hist socks = .ok (hist', rows) →
      MapBounded hist' := by
  intro socks
  induction socks with
  | nil =>
    intro hist hist' rows hM h
    unfold gen_socket_string_vector at h
    simp only [Except.ok.injEq, Prod.mk.injEq] at h
    rw [← h.1]; exact hM
  | cons sock rest ih =>
    intro hist hist' rows hM h
    obtain ⟨hist1, row, rows', hg, hr, _⟩ := gen_cons_elim cache hist sock rest hist' rows h
    exact ih hist1 hist' rows' (genStep_MapBounded cache hist sock hist1 row hM hg) hr

theorem refresh_elim (gathered : List DiagWithInode) (st st' : StatefulTable)
    (h : StatefulTable.refresh gathered st = .ok st') :
    ∃ hist items,
      gen_socket_string_vector st.name_lookups st.history st.sockets = .ok (hist, items) ∧
      st' = { st with sockets := gathered, items := items, history := hist } := by
  unfold StatefulTable.refresh at h
  cases hg : gen_socket_string_vector st.name_lookups st.history st.sockets with
  | error e => rw [hg] at h; simp at h
  | ok p =>
    obtain ⟨hist, items⟩ := p
    rw [hg] at h
    simp only [Except.ok.injEq] at h
    exact ⟨hist, items, rfl, h.symm⟩

theorem runRefreshes_MapAligned :
    ∀ (gs : List (List DiagWithInode)) (st st' : StatefulTable),
      MapAligned st.history →
      runRefreshes gs st = .ok st' →
      MapAligned st'.history := by
  intro gs
  induction gs with
  | nil =>
    intro st st' hM h
    unfold runRefreshes at h
    simp only [Except.ok.injEq] at h
    rw [← h]; exact hM
  | cons g gs ih =>
    intro st st' hM h
    unfold runRefreshes at h
    cases hr : StatefulTable.refresh g st with
    | error e => rw [hr] at h; simp at h
    | ok st1 =>
      rw [hr] at h
      obtain ⟨hist, items, hg, hst1⟩ := refresh_elim g st st1 hr
      refine ih st1 st' ?_ h
      rw [hst1]
      exact gen_MapAligned st.name_lookups st.sockets st.history hist items hM hg

theorem runRefreshes_MapBounded :
    ∀ (gs : List (List DiagWithInode)) (st st' : StatefulTable),
      MapBounded st.history →
      runRefreshes gs st = .ok st' →
      MapBounded st'.history := by
  intro gs
  induction gs with
  | nil =>
    intro st st' hM h
    unfold runRefreshes at h
    simp only [Except.ok.injEq] at h
    rw [← h]; exact hM
  | cons g gs ih =>
    intro st st' hM h
    unfold runRefreshes at h
    cases hr : StatefulTable.refresh g st with
    | error e => rw [hr] at h; simp at h
    | ok st1 =>
      rw [hr] at h
      obtain ⟨hist, items, hg, hst1⟩ := refresh_elim g st st1 hr
      refine ih st1 st' ?_ h
      rw [hst1]
      exact gen_MapBounded st.name_lookups st.sockets st.history hist items hM hg

/-! ## Iterating the update for a single inode -/

theorem snoc_take_step (T s : List Nat) (v : Nat) :
    (T.reverse ++ (v :: s).take HISTORY_RETENTION).take HISTORY_RETENTION
      = ((v :: T).reverse ++ s).take HISTORY_RETENTION := by
  calc (T.reverse ++ (v :: s).take HISTORY_RETENTION).take HISTORY_RETENTION
      = (T.reverse ++ (v :: s)).take HISTORY_RETENTION :=
        take_append_take HISTORY_RETENTION T.reverse (v :: s) HISTORY_RETENTION le_rfl
    _ = ((v :: T).reverse ++ s).take HISTORY_RETENTION := by
        rw [List.reverse_cons, List.append_assoc]
        rfl

theorem genStep_mkSock (cache : NameCache) (hist : HistMap) (inode : Nat)
    (src dst : SocketAddr) (tci : TCPInfo) (hd : SocketHistory)
    (sb0 rb0 : Nat) (sbt rbt : List Nat) (stc : TCP_STATE)
    (hget : histGet hist inode = some hd)
    (hsb : hd.send_bytes = sb0 :: sbt)
    (hrb : hd.recv_bytes = rb0 :: rbt)
    (hle1 : sb0 ≤ tci.tcpi_bytes_sent)
    (hle2 : rb0 ≤ tci.tcpi_bytes_received)
    (hstc : TCP_STATE.from_u8 tci.tcpi_state = .ok stc) :
    genStep cache hist (mkSock inode src dst tci) = .ok
      (histSet hist inode
        (hd.update tci (tci.tcpi_bytes_sent - sb0) (tci.tcpi_bytes_received - rb0)),
       rowOf cache (mkSock inode src dst tci) stc
        (hd.update tci (tci.tcpi_bytes_sent - sb0) (tci.tcpi_bytes_received - rb0))) := by
  have hentry : entry0 hist (mkSock inode src dst tci).inode tci = hd := by
    simp [mkSock, entry0, hget]
  have h := genStep_intro cache hist (mkSock inode src dst tci) tci sb0 rb0 sbt rbt stc
    rfl (by rw [hentry, hsb]) (by rw [hentry, hrb]) hle1 hle2 hstc
  rw [hentry] at h
  simpa [mkSock] using h

theorem iterTicks_entry (cache : NameCache) (inode : Nat) (src dst : SocketAddr) :
    ∀ (tcis : List TCPInfo) (hist : HistMap) (hd : SocketHistory)
      (sb0 rb0 : Nat) (sbt rbt : List Nat),
      histGet hist inode = some hd →
      hd.send_bytes = sb0 :: sbt →
      hd.recv_bytes = rb0 :: rbt →
      hd.bounded →
      chainMono sb0 rb0 tcis = true →
      (∀ tci ∈ tcis, ∃ stc, TCP_STATE.from_u8 tci.tcpi_state = .ok stc) →
      ∃ hist',
        iterTicks cache (tcis.map (mkSock inode src dst)) hist = .ok hist' ∧
        ∃ hd', histGet hist' inode = some hd' ∧
          hd'.send_bps = ((rateTrace sb0 (tcis.map TCPInfo.tcpi_bytes_sent)).reverse
            ++ hd.send_bps).take HISTORY_RETENTION ∧
          hd'.recv_bps = ((rateTrace rb0 (tcis.map TCPInfo.tcpi_bytes_received)).reverse
            ++ hd.recv_bps).take HISTORY_RETENTION ∧
          hd'.send_bytes = ((tcis.map TCPInfo.tcpi_bytes_sent).reverse
            ++ hd.send_bytes).take HISTORY_RETENTION ∧
          hd'.recv_bytes = ((tcis.map TCPInfo.tcpi_bytes_received).reverse
            ++ hd.recv_bytes).take HISTORY_RETENTION ∧
          hd'.packet_loss = ((tcis.map lossOf).reverse
            ++ hd.packet_loss).take HISTORY_RETENTION ∧
          hd'.congestion_window = ((tcis.map TCPInfo.tcpi_snd_cwnd).reverse
            ++ hd.congestion_window).take HISTORY_RETENTION := by
  intro tcis
  induction tcis with
  | nil =>
    intro hist hd sb0 rb0 sbt rbt hget hsb hrb hbd hmono hstates
    obtain ⟨b1, b2, b3, b4, b5, b6⟩ := hbd
    refine ⟨hist, rfl, hd, hget, ?_, ?_, ?_, ?_, ?_, ?_⟩
    · simpa [rateTrace] using (List.take_of_length_le b1).symm
    · simpa [rateTrace] using (List.take_of_length_le b2).symm
    · simpa using (List.take_of_length_le b3).symm
    · simpa using (List.take_of_length_le b4).symm
    · simpa using (List.take_of_length_le b5).symm
    · simpa using (List.take_of_length_le b6).symm
  | cons tci rest ih =>
    intro hist hd sb0 rb0 sbt rbt hget hsb hrb hbd hmono hstates
    simp only [chainMono, Bool.and_eq_true, decide_eq_true_eq] at hmono
    obtain ⟨⟨hle1, hle2⟩, hmono'⟩ := hmono
    obtain ⟨stc, hstc⟩ := hstates tci (by simp)
    have hrow := genStep_mkSock cache hist inode src dst tci hd sb0 rb0 sbt rbt stc
      hget hsb hrb hle1 hle2 hstc
    have hsb1 : (hd.update tci (tci.tcpi_bytes_sent - sb0)
        (tci.tcpi_bytes_received - rb0)).send_bytes
        = tci.tcpi_bytes_sent :: (sb0 :: sbt).take 29 := by
      have h0 : (hd.update tci (tci.tcpi_bytes_sent - sb0)
          (tci.tcpi_bytes_received - rb0)).send_bytes
          = (tci.tcpi_bytes_sent :: hd.send_bytes).take HISTORY_RETENTION := rfl
      rw [h0, hsb]
      rfl
    have hrb1 : (hd.update tci (tci.tcpi_bytes_sent - sb0)
        (tci.tcpi_bytes_received - rb0)).recv_bytes
        = tci.tcpi_bytes_received :: (rb0 :: rbt).take 29 := by
      have h0 : (hd.update tci (tci.tcpi_bytes_sent - sb0)
          (tci.tcpi_bytes_received - rb0)).recv_bytes
          = (tci.tcpi_bytes_received :: hd.recv_bytes).take HISTORY_RETENTION := rfl
      rw [h0, hrb]
      rfl
    obtain ⟨hist', hiter, hd', hget', e1, e2, e3, e4, e5, e6⟩ :=
      ih (histSet hist inode
            (hd.update tci (tci.tcpi_bytes_sent - sb0) (tci.tcpi_bytes_received - rb0)))
        (hd.update tci (tci.tcpi_bytes_sent - sb0) (tci.tcpi_bytes_received - rb0))
        tci.tcpi_bytes_sent tci.tcpi_bytes_received
        ((sb0 :: sbt).take 29) ((rb0 :: rbt).take 29)
        (histGet_histSet_self hist inode _) hsb1 hrb1 (update_bounded hd tci _ _)
        hmono' (fun t ht => hstates t (by simp [ht]))
    have hit : iterTicks cache ((tci :: rest).map (mkSock inode src dst)) hist
        = iterTicks cache (rest.map (mkSock inode src dst))
            (histSet hist inode
              (hd.update tci (tci.tcpi_bytes_sent - sb0) (tci.tcpi_bytes_received - rb0))) := by
      simp only [List.map_cons, iterTicks, hrow]
    refine ⟨hist', hit.trans hiter, hd', hget', ?_, ?_, ?_, ?_, ?_, ?_⟩
    · rw [List.map_cons]
      simp only [rateTrace]
      rw [← snoc_take_step]
      exact e1
    · rw [List.map_cons]
      simp only [rateTrace]
      rw [← snoc_take_step]
      exact e2
    · rw [List.map_cons, ← snoc_take_step]
      exact e3
    · rw [List.map_cons, ← snoc_take_step]
      exact e4
    · rw [List.map_cons, ← snoc_take_step]
      exact e5
    · rw [List.map_cons, ← snoc_take_step]
      exact e6

/-! ## The LISTEN filter -/

theorem from_u8_eq_listen (s : Nat)
    (h : TCP_STATE.from_u8 s = .ok TCP_STATE.LISTEN) : s = 10 := by
  unfold TCP_STATE.from_u8 at h
  split at h <;> simp_all

theorem to_string_ne_listen (stc : TCP_STATE) (h : stc ≠ TCP_STATE.LISTEN) :
    stc.to_string ≠ "LISTEN" := by
  cases stc <;> first
    | exact absurd rfl h
    | decide

theorem gather_loop_filter :
    ∀ (chan : List RecvItem) (acc socks : List DiagWithInode),
      gather_loop chan acc = .ok socks →
      (∀ s ∈ acc, ∃ i, s.info = some i ∧ i.tcpi_state ≠ 10) →
      ∀ s ∈ socks, ∃ i, s.info = some i ∧ i.tcpi_state ≠ 10 := by
  intro chan
  induction chan with
  | nil =>
    intro acc socks h hacc
    unfold gather_loop at h
    simp only [Except.ok.injEq] at h
    rw [← h]; exact hacc
  | cons item rest ih =>
    intro acc socks h hacc
    cases item with
    | done =>
      unfold gather_loop at h
      simp only [Except.ok.injEq] at h
      rw [← h]; exact hacc
    | fail =>
      unfold gather_loop at h
      simp at h
    | msg m =>
      unfold gather_loop at h
      split at h
      · simp at h
      · rename_i sd hd
        split at h
        · rename_i info hinfo
          split at h
          · rename_i hs
            refine ih _ _ h ?_
            intro s hmem
            rcases List.mem_append.mp hmem with hin | hin
            · exact hacc s hin
            · simp only [List.mem_singleton] at hin
              subst hin
              exact ⟨info, hinfo, hs⟩
          · exact ih _ _ h hacc
        · exact ih _ _ h hacc

theorem gather_sockets_filter (openOk sendOk : Bool) (chan : List RecvItem)
    (socks : List DiagWithInode)
    (h : gather_sockets openOk sendOk chan = .ok socks) :
    ∀ s ∈ socks, ∃ i, s.info = some i ∧ i.tcpi_state ≠ 10 := by
  unfold gather_sockets at h
  split at h
  · split at h
    · exact gather_loop_filter chan [] socks h (by simp)
    · simp at h
  · simp at h

theorem gen_rows_no_listen (cache : NameCache) :
    ∀ (socks : List DiagWithInode) (hist hist' : HistMap) (rows : List (List String)),
      (∀ s ∈ socks, ∃ i, s.info = some i ∧ i.tcpi_state ≠ 10) →
      gen_socket_string_vector cache hist socks = .ok (hist', rows) →
      ∀ row ∈ rows, row.get? 2 ≠ some "LISTEN" := by
  intro socks
  induction socks with
  | nil =>
    intro hist hist' rows hP h
    unfold gen_socket_string_vector at h
    simp only [Except.ok.injEq, Prod.mk.injEq] at h
    rw [← h.2]
    simp
  | cons sock rest ih =>
    intro hist hist' rows hP h
    obtain ⟨hist1, row, rows', hg, hr, hrows⟩ :=
      gen_cons_elim cache hist sock rest hist' rows h
    subst hrows
    intro r hmem
    rcases List.mem_cons.mp hmem with rfl | hin
    · obtain ⟨tci, sb0, rb0, sbt, rbt, stc, hinfo, _, _, _, _, hstc, _, hrow⟩ :=
        genStep_elim cache hist sock hist1 r hg
      subst hrow
      obtain ⟨i, hi, hs⟩ := hP sock (by simp)
      rw [hinfo] at hi
      obtain rfl := Option.some.inj hi
      simp only [rowOf, List.get?, ne_eq, Option.some.injEq]
      apply to_string_ne_listen
      intro hl
      subst hl
      exact hs (from_u8_eq_listen _ hstc)
    · exact ih hist1 hist' rows' (fun s h' => hP s (by simp [h'])) hr r hin

/-! ## Claim theorems -/

/-- C4: for every byte rate, the formatter follows the spec's three tiers —
"bps" with integer magnitude below 1000, `r/1000` to two decimals with
"kbps" below 1,000,000, `r/1000000` to two decimals with "mbps" from
1,000,000 on — and the five concrete examples format as stated.  The
two-decimal rendering is of the binary64 quotient the program computes, as
witnessed by the two decimal-tie inputs: 2675 prints "2.67 kbps" and 1015
prints "1.01 kbps", because the doubles nearest 2.675 and 1.015 lie below
them. -/
theorem friendly_transfer_str_spec :
    (∀ r : Nat, friendly_transfer_str r = spec_throughput_format r) ∧
    friendly_transfer_str 1111901 = "1.11 mbps" ∧
    friendly_transfer_str 9911 = "9.91 kbps" ∧
    friendly_transfer_str 999 = "999 bps" ∧
    friendly_transfer_str 9999 = "10.00 kbps" ∧
    friendly_transfer_str 112233 = "112.23 kbps" ∧
    friendly_transfer_str 2675 = "2.67 kbps" ∧
    friendly_transfer_str 1015 = "1.01 kbps" := by
  refine ⟨?_, by decide, by decide, by decide, by decide, by decide, by decide, by decide⟩
  intro r
  unfold friendly_transfer_str spec_throughput_format
  by_cases h1 : r < 1000
  · have hb : is_bps (r : ℚ) = true := by
      simp only [is_bps, decide_eq_true_eq]
      exact_mod_cast h1
    simp [hb, h1]
  · have hb : is_bps (r : ℚ) = false := by
      simp only [is_bps, decide_eq_false_iff_not]
      exact_mod_cast h1
    by_cases h2 : r < 1000000
    · have hk : is_kbps (r : ℚ) = true := by
        simp only [is_kbps, Bool.decide_and, Bool.and_eq_true, decide_eq_true_eq]
        constructor
        · exact_mod_cast Nat.not_lt.mp h1
        · exact_mod_cast h2
      simp [hb, hk, h1, h2]
    · have hk : is_kbps (r : ℚ) = false := by
        simp only [is_kbps, Bool.decide_and, Bool.and_eq_true, decide_eq_true_eq,
          Bool.and_eq_false_iff, decide_eq_false_iff_not]
        right
        exact_mod_cast h2
      have hm : is_mbps (r : ℚ) = true := by
        simp only [is_mbps, decide_eq_true_eq]
        exact_mod_cast Nat.not_lt.mp h2
      simp [hb, hk, hm, h1, h2]

/-- C9: decoding a synthetic diagnostic message with the IPv4 family tag
builds the address from the first 4 bytes of the 16-byte buffer, with the
IPv6 tag from all 16 bytes, and in both cases the ports are byte-swapped
from big-endian to host order while state, inode and the embedded stats
are reproduced identically. -/
theorem diag_decode_roundtrip :
    (∀ (state sport dport inode : Nat) (src dst : List Nat) (info : Option TCPInfo),
      diag_with_node
          { idiag_family := AF_INET, idiag_state := state, idiag_sport := sport,
            idiag_dport := dport, idiag_src := src, idiag_dst := dst,
            idiag_inode := inode, info := info } =
        .ok { family := AF_INET, src := ⟨IpAddr.v4 (src.take 4), u16_to_be sport⟩,
              dst := ⟨IpAddr.v4 (dst.take 4), u16_to_be dport⟩,
              state := state, inode := inode, info := info } ∧
      diag_with_node
          { idiag_family := AF_INET6, idiag_state := state, idiag_sport := sport,
            idiag_dport := dport, idiag_src := src, idiag_dst := dst,
            idiag_inode := inode, info := info } =
        .ok { family := AF_INET6, src := ⟨IpAddr.v6 src, u16_to_be sport⟩,
              dst := ⟨IpAddr.v6 dst, u16_to_be dport⟩,
              state := state, inode := inode, info := info }) ∧
    u16_to_be 20480 = 80 ∧ u16_to_be 80 = 20480 := by
  refine ⟨?_, by decide, by decide⟩
  intro state sport dport inode src dst info
  constructor
  · simp [diag_with_node, addr, AF_INET]
  · simp [diag_with_node, addr, AF_INET, AF_INET6]

/-- C3 counterexample: a message family that is neither the IPv4 nor the
IPv6 tag (here 7) is NOT propagated as a decode failure — `addr` decodes
it as a 16-byte IPv6 address — and a failure to open the diagnostic
channel is not reported upward as an error result: it panics (terminates
the process) through `.unwrap()`. -/
theorem unknown_family_decodes_and_open_failure_panics :
    addr 7 [1, 2, 3, 4, 5, 6, 7, 8, 9, 10, 11, 12, 13, 14, 15, 16] 80 =
      .ok ⟨IpAddr.v6 [1, 2, 3, 4, 5, 6, 7, 8, 9, 10, 11, 12, 13, 14, 15, 16], 20480⟩ ∧
    gather_sockets false true [] = .error .panicked := ⟨rfl, rfl⟩

/-- C3 amended: the decode path never rejects a family — every family
other than the IPv4 tag is decoded as a 16-byte IPv6 address (the IPv6
match arm of `addr` is an unimported identifier, hence a catch-all
binding), so no message is skipped over its family; and a failure to open
the channel, to send the request, or to receive a message makes
`gather_sockets` panic (abort the process) via `.unwrap()` rather than
return an error result — an `.ok` result is only possible when opening and
sending both succeeded. -/
theorem gather_failure_behavior :
    (∀ (family : Nat) (octets : List Nat) (port : Nat), family ≠ AF_INET →
      addr family octets port = .ok ⟨IpAddr.v6 octets, u16_to_be port⟩) ∧
    (∀ chan, gather_sockets false true chan = .error .panicked) ∧
    (∀ chan, gather_sockets true false chan = .error .panicked) ∧
    (∀ rest acc, gather_loop (RecvItem.fail :: rest) acc = .error .panicked) ∧
    (∀ openOk sendOk chan socks, gather_sockets openOk sendOk chan = .ok socks →
      openOk = true ∧ sendOk = true) := by
  refine ⟨?_, fun _ => rfl, fun _ => rfl, fun _ _ => rfl, ?_⟩
  · intro f o p hf
    simp [addr, hf]
  · intro openOk sendOk chan socks h
    cases openOk <;> cases sendOk <;> simp_all [gather_sockets]

/-- C3 witness: the amended statement applied at concrete inputs. -/
theorem gather_failure_behavior_witness :
    addr 10 (List.replicate 16 0) 80 = .ok ⟨IpAddr.v6 (List.replicate 16 0), 20480⟩ ∧
    gather_sockets false true [] = .error .panicked ∧
    (true = true ∧ true = true) :=
  ⟨gather_failure_behavior.1 10 (List.replicate 16 0) 80 (by decide),
   gather_failure_behavior.2.1 [],
   gather_failure_behavior.2.2.2.2 true true [] [] rfl⟩

/-- C2 counterexample: on an empty row list with a selection present,
`next` and `previous` are not inert no-ops — the `items.len() - 1`
subtraction underflows and the operation fails (panics in a checked
build), contradicting "never failing". -/
theorem select_empty_list_panics :
    StatefulTable.next
        { selected := some 0, items := [], sockets := [], history := [],
          name_lookups := [] } = .error .panicked ∧
    StatefulTable.previous
        { selected := some 0, items := [], sockets := [], history := [],
          name_lookups := [] } = .error .panicked := ⟨rfl, rfl⟩

/-- C2 amended: for a row list of length L > 0 the wraparound behaviour is
as claimed (`next` from L-1 gives 0 and from i < L-1 gives i+1; `previous`
from 0 gives L-1 and from i > 0 gives i-1), and with no selection either
operation selects index 0 — including on an empty list; but on an empty
row list with a selection present the operations are not no-ops: `next`
always fails on the underflowing `L - 1` computation, and `previous` fails
from index 0 (from i > 0 it selects i-1 without touching the length). -/
theorem selection_wraparound (st : StatefulTable) :
    (∀ i, st.selected = some i → i + 1 < st.items.length →
      st.next = .ok { st with selected := some (i + 1) }) ∧
    (st.selected = some (st.items.length - 1) → 0 < st.items.length →
      st.next = .ok { st with selected := some 0 }) ∧
    (st.selected = some 0 → 0 < st.items.length →
      st.previous = .ok { st with selected := some (st.items.length - 1) }) ∧
    (∀ i, st.selected = some i → 0 < i →
      st.previous = .ok { st with selected := some (i - 1) }) ∧
    (st.selected = none →
      st.next = .ok { st with selected := some 0 } ∧
      st.previous = .ok { st with selected := some 0 }) ∧
    (∀ i, st.selected = some i → st.items.length = 0 →
      st.next = .error .panicked) ∧
    (st.selected = some 0 → st.items.length = 0 →
      st.previous = .error .panicked) := by
  refine ⟨?_, ?_, ?_, ?_, ?_, ?_, ?_⟩
  · intro i hsel hlt
    unfold StatefulTable.next
    rw [hsel]
    have h1 : (1 : Nat) ≤ st.items.length := by omega
    simp [checkedSub, h1]
    omega
  · intro hsel hpos
    unfold StatefulTable.next
    rw [hsel]
    have h1 : (1 : Nat) ≤ st.items.length := hpos
    simp [checkedSub, h1]
  · intro hsel hpos
    unfold StatefulTable.previous
    rw [hsel]
    have h1 : (1 : Nat) ≤ st.items.length := hpos
    simp [checkedSub, h1]
  · intro i hsel hpos
    unfold StatefulTable.previous
    rw [hsel]
    have h0 : ¬ i = 0 := by omega
    simp [h0]
  · intro hsel
    constructor
    · unfold StatefulTable.next
      rw [hsel]
    · unfold StatefulTable.previous
      rw [hsel]
  · intro i hsel hlen
    unfold StatefulTable.next
    rw [hsel]
    have h1 : ¬ (1 : Nat) ≤ st.items.length := by omega
    simp [checkedSub, h1]
  · intro hsel hlen
    unfold StatefulTable.previous
    rw [hsel]
    have h1 : ¬ (1 : Nat) ≤ st.items.length := by omega
    simp [checkedSub, h1]

/-- C2 witness: the amended statement applied on a concrete two-row
table. -/
theorem selection_wraparound_witness :
    StatefulTable.next
        { selected := some 1, items := [["a"], ["b"]], sockets := [], history := [],
          name_lookups := [] } =
      .ok { selected := some 0, items := [["a"], ["b"]], sockets := [], history := [],
            name_lookups := [] } ∧
    StatefulTable.previous
        { selected := some 0, items := [["a"], ["b"]], sockets := [], history := [],
          name_lookups := [] } =
      .ok { selected := some 1, items := [["a"], ["b"]], sockets := [], history := [],
            name_lookups := [] } ∧
    StatefulTable.next
        { selected := some 0, items := [], sockets := [], history := [],
          name_lookups := [] } = .error .panicked := by
  refine ⟨?_, ?_, ?_⟩
  · exact (selection_wraparound
      { selected := some 1, items := [["a"], ["b"]], sockets := [], history := [],
        name_lookups := [] }).2.1 rfl (by decide)
  · exact (selection_wraparound
      { selected := some 0, items := [["a"], ["b"]], sockets := [], history := [],
        name_lookups := [] }).2.2.1 rfl (by decide)
  · exact (selection_wraparound
      { selected := some 0, items := [], sockets := [], history := [],
        name_lookups := [] }).2.2.2.2.2.1 0 rfl rfl

/-- C1: after a `refresh`, the rows are NOT derived from the socket set the
protocol client returned during that same call: starting from a table whose
stored socket list is empty, a refresh whose gather returns one
ESTABLISHED socket produces an empty row list (the rows are generated from
the socket list saved before the call, and only then is the new list
installed), while deriving rows from that same gather result yields one
row. -/
theorem refresh_rows_from_previous_gather :
    StatefulTable.refresh [sockEst] (StatefulTable.new []) =
      .ok (StatefulTable.new [sockEst]) ∧
    (StatefulTable.new [sockEst]).rows = [] ∧
    (∃ hist rows, gen_socket_string_vector [] [] [sockEst] = .ok (hist, rows) ∧
      rows.length = 1) := by
  refine ⟨rfl, rfl, ?_⟩
  exact ⟨_, _, rfl, rfl⟩

theorem update_heads (hd : SocketHistory) (tci : TCPInfo) (s r : Nat) :
    (hd.update tci s r).send_bps.head? = some (if s = tci.tcpi_bytes_sent then 0 else s) ∧
    (hd.update tci s r).recv_bps.head? = some (if r = tci.tcpi_bytes_received then 0 else r) ∧
    (hd.update tci s r).send_bytes.head? = some tci.tcpi_bytes_sent ∧
    (hd.update tci s r).recv_bytes.head? = some tci.tcpi_bytes_received ∧
    (hd.update tci s r).packet_loss.head? = some (lossOf tci) ∧
    (hd.update tci s r).congestion_window.head? = some tci.tcpi_snd_cwnd :=
  ⟨rfl, rfl, rfl, rfl, rfl, rfl⟩

/-- C5: an inode observed for the first time is seeded with zero rates and
the snapshot's current cumulative byte counters, and the rates recorded on
that same first refresh are both 0 — and, in general, whenever the
computed delta equals the full current cumulative counter, the recorded
rate is 0 rather than the delta. -/
theorem first_observation_zero_rates :
    (∀ (cache : NameCache) (hist : HistMap) (sock : DiagWithInode) (tci : TCPInfo),
      sock.info = some tci →
      (∃ stc, TCP_STATE.from_u8 tci.tcpi_state = .ok stc) →
      histGet hist sock.inode = none →
      ∃ hist' row hd',
        genStep cache hist sock = .ok (hist', row) ∧
        histGet hist' sock.inode = some hd' ∧
        hd'.send_bps.head? = some 0 ∧
        hd'.recv_bps.head? = some 0 ∧
        hd'.send_bytes.head? = some tci.tcpi_bytes_sent ∧
        hd'.recv_bytes.head? = some tci.tcpi_bytes_received ∧
        (SocketHistory.new HISTORY_RETENTION tci).send_bps = [0] ∧
        (SocketHistory.new HISTORY_RETENTION tci).recv_bps = [0] ∧
        (SocketHistory.new HISTORY_RETENTION tci).send_bytes = [tci.tcpi_bytes_sent] ∧
        (SocketHistory.new HISTORY_RETENTION tci).recv_bytes = [tci.tcpi_bytes_received]) ∧
    (∀ (hd : SocketHistory) (tci : TCPInfo) (s r : Nat),
      s = tci.tcpi_bytes_sent → (hd.update tci s r).send_bps.head? = some 0) ∧
    (∀ (hd : SocketHistory) (tci : TCPInfo) (s r : Nat),
      r = tci.tcpi_bytes_received → (hd.update tci s r).recv_bps.head? = some 0) := by
  refine ⟨?_, ?_, ?_⟩
  · intro cache hist sock tci hinfo hstates hfresh
    obtain ⟨stc, hstc⟩ := hstates
    have hentry := entry0_of_none hist sock.inode tci hfresh
    have hsb : (entry0 hist sock.inode tci).send_bytes = tci.tcpi_bytes_sent :: [] := by
      rw [hentry]; rfl
    have hrb : (entry0 hist sock.inode tci).recv_bytes = tci.tcpi_bytes_received :: [] := by
      rw [hentry]; rfl
    have hstep := genStep_intro cache hist sock tci tci.tcpi_bytes_sent
      tci.tcpi_bytes_received [] [] stc hinfo hsb hrb le_rfl le_rfl hstc
    refine ⟨_, _, _, hstep, histGet_histSet_self _ _ _, ?_, ?_, ?_, ?_, rfl, rfl, rfl, rfl⟩
    · have h := (update_heads (entry0 hist sock.inode tci) tci
        (tci.tcpi_bytes_sent - tci.tcpi_bytes_sent)
        (tci.tcpi_bytes_received - tci.tcpi_bytes_received)).1
      rw [Nat.sub_self] at h
      simpa using h
    · have h := (update_heads (entry0 hist sock.inode tci) tci
        (tci.tcpi_bytes_sent - tci.tcpi_bytes_sent)
        (tci.tcpi_bytes_received - tci.tcpi_bytes_received)).2.1
      rw [Nat.sub_self] at h
      simpa using h
    · exact (update_heads _ tci _ _).2.2.1
    · exact (update_heads _ tci _ _).2.2.2.1
  · intro hd tci s r hs
    have h := (update_heads hd tci s r).1
    rw [if_pos hs] at h
    exact h
  · intro hd tci s r hr
    have h := (update_heads hd tci s r).2.1
    rw [if_pos hr] at h
    exact h

/-- C5 witness: the theorem applied to a fresh inode with a concrete
all-zero ESTABLISHED snapshot, and the delta-equals-cumulative rule
applied concretely. -/
theorem first_observation_zero_rates_witness :
    (∃ hist' row hd',
      genStep [] [] sockEst = .ok (hist', row) ∧
      histGet hist' sockEst.inode = some hd' ∧
      hd'.send_bps.head? = some 0 ∧
      hd'.recv_bps.head? = some 0 ∧
      hd'.send_bytes.head? = some tciE.tcpi_bytes_sent ∧
      hd'.recv_bytes.head? = some tciE.tcpi_bytes_received ∧
      (SocketHistory.new HISTORY_RETENTION tciE).send_bps = [0] ∧
      (SocketHistory.new HISTORY_RETENTION tciE).recv_bps = [0] ∧
      (SocketHistory.new HISTORY_RETENTION tciE).send_bytes = [tciE.tcpi_bytes_sent] ∧
      (SocketHistory.new HISTORY_RETENTION tciE).recv_bytes = [tciE.tcpi_bytes_received]) ∧
    ((SocketHistory.new HISTORY_RETENTION tciE).update tciE 0 0).send_bps.head? = some 0 ∧
    ((SocketHistory.new HISTORY_RETENTION tciE).update tciE 0 0).recv_bps.head? = some 0 :=
  ⟨first_observation_zero_rates.1 [] [] sockEst tciE rfl ⟨TCP_STATE.ESTABLISHED, rfl⟩ rfl,
   first_observation_zero_rates.2.1 _ tciE 0 0 rfl,
   first_observation_zero_rates.2.2 _ tciE 0 0 rfl⟩

/-- C8: the loss percentage pushed into history and rendered in the row is
the integer quotient of total retransmits by data segments sent when the
latter is nonzero, and 0 when it is zero, regardless of the retransmit
count. -/
theorem packet_loss_division_guard :
    ∀ (cache : NameCache) (hist : HistMap) (sock : DiagWithInode) (tci : TCPInfo)
      (hist' : HistMap) (row : List String),
      sock.info = some tci →
      genStep cache hist sock = .ok (hist', row) →
      ∃ hd', histGet hist' sock.inode = some hd' ∧
        (tci.tcpi_data_segs_out = 0 →
          hd'.packet_loss.head? = some 0 ∧
          row.get? 5 = some (toString (0 : Nat) ++ "%")) ∧
        (tci.tcpi_data_segs_out ≠ 0 →
          hd'.packet_loss.head? = some (tci.tcpi_total_retrans / tci.tcpi_data_segs_out) ∧
          row.get? 5 =
            some (toString (tci.tcpi_total_retrans / tci.tcpi_data_segs_out) ++ "%")) := by
  intro cache hist sock tci hist' row hinfo h
  obtain ⟨tci', sb0, rb0, sbt, rbt, stc, hinfo', hsb, hrb, hle1, hle2, hstc, hh, hrow⟩ :=
    genStep_elim cache hist sock hist' row h
  rw [hinfo] at hinfo'
  obtain rfl := Option.some.inj hinfo'
  subst hh
  subst hrow
  refine ⟨_, histGet_histSet_self _ _ _, ?_, ?_⟩
  · intro hz
    constructor
    · have hl := (update_heads (entry0 hist sock.inode tci) tci
        (tci.tcpi_bytes_sent - sb0) (tci.tcpi_bytes_received - rb0)).2.2.2.2.1
      rw [hl]
      simp [lossOf, hz]
    · simp only [rowOf, List.get?]
      have : ((entry0 hist sock.inode tci).update tci (tci.tcpi_bytes_sent - sb0)
          (tci.tcpi_bytes_received - rb0)).packet_loss.headD 0 = lossOf tci := rfl
      rw [this]
      simp [lossOf, hz]
  · intro hz
    constructor
    · have hl := (update_heads (entry0 hist sock.inode tci) tci
        (tci.tcpi_bytes_sent - sb0) (tci.tcpi_bytes_received - rb0)).2.2.2.2.1
      rw [hl]
      simp [lossOf, hz]
    · simp only [rowOf, List.get?]
      have : ((entry0 hist sock.inode tci).update tci (tci.tcpi_bytes_sent - sb0)
          (tci.tcpi_bytes_received - rb0)).packet_loss.headD 0 = lossOf tci := rfl
      rw [this]
      simp [lossOf, hz]

/-- C8 witness: the theorem applied to a concrete zero-segments snapshot. -/
theorem packet_loss_division_guard_witness :
    ∃ hd', histGet [(5, (SocketHistory.new HISTORY_RETENTION tciE).update tciE 0 0)] 5 =
        some hd' ∧
      (tciE.tcpi_data_segs_out = 0 →
        hd'.packet_loss.head? = some 0 ∧
        (["127.0.0.1:1000", "127.0.0.1:2000", "ESTABLISHED", "0 bps", "0 bps",
          "0%"] : List String).get? 5 = some (toString (0 : Nat) ++ "%")) ∧
      (tciE.tcpi_data_segs_out ≠ 0 →
        hd'.packet_loss.head? = some (tciE.tcpi_total_retrans / tciE.tcpi_data_segs_out) ∧
        (["127.0.0.1:1000", "127.0.0.1:2000", "ESTABLISHED", "0 bps", "0 bps",
          "0%"] : List String).get? 5 =
          some (toString (tciE.tcpi_total_retrans / tciE.tcpi_data_segs_out) ++ "%")) :=
  packet_loss_division_guard [] [] sockEst tciE
    [(5, (SocketHistory.new HISTORY_RETENTION tciE).update tciE 0 0)]
    ["127.0.0.1:1000", "127.0.0.1:2000", "ESTABLISHED", "0 bps", "0 bps", "0%"]
    rfl rfl

/-- C10: the six history series always have equal, positive lengths — the
seeding constructor establishes the invariant, every generation step (and
hence any sequence of refreshes from a fresh table) preserves it — and
under that invariant (plus present stats, a state code the enum accepts,
and §3's monotone counters) a generation step succeeds: in particular the
index-0 reads during row generation cannot fail. -/
theorem history_series_aligned :
    (∀ (sz : Nat) (tci : TCPInfo), (SocketHistory.new sz tci).aligned) ∧
    (∀ (cache : NameCache) (hist : HistMap) (sock : DiagWithInode)
        (hist' : HistMap) (row : List String),
      MapAligned hist → genStep cache hist sock = .ok (hist', row) →
      MapAligned hist') ∧
    (∀ (gs : List (List DiagWithInode)) (g0 : List DiagWithInode) (st : StatefulTable),
      runRefreshes gs (StatefulTable.new g0) = .ok st → MapAligned st.history) ∧
    (∀ (cache : NameCache) (hist : HistMap) (sock : DiagWithInode) (tci : TCPInfo),
      MapAligned hist →
      sock.info = some tci →
      (∃ stc, TCP_STATE.from_u8 tci.tcpi_state = .ok stc) →
      (∀ hd, histGet hist sock.inode = some hd →
        hd.send_bytes.headD 0 ≤ tci.tcpi_bytes_sent ∧
        hd.recv_bytes.headD 0 ≤ tci.tcpi_bytes_received) →
      ∃ hist' row, genStep cache hist sock = .ok (hist', row)) := by
  refine ⟨new_aligned, genStep_MapAligned, ?_, ?_⟩
  · intro gs g0 st h
    refine runRefreshes_MapAligned gs (StatefulTable.new g0) st ?_ h
    intro k hd hget
    simp [StatefulTable.new, histGet] at hget
  · intro cache hist sock tci hM hinfo hstates hmono
    obtain ⟨stc, hstc⟩ := hstates
    cases hget : histGet hist sock.inode with
    | none =>
      have hentry := entry0_of_none hist sock.inode tci hget
      have hsb : (entry0 hist sock.inode tci).send_bytes = tci.tcpi_bytes_sent :: [] := by
        rw [hentry]; rfl
      have hrb : (entry0 hist sock.inode tci).recv_bytes = tci.tcpi_bytes_received :: [] := by
        rw [hentry]; rfl
      exact ⟨_, _, genStep_intro cache hist sock tci tci.tcpi_bytes_sent
        tci.tcpi_bytes_received [] [] stc hinfo hsb hrb le_rfl le_rfl hstc⟩
    | some hd =>
      have hentry := entry0_of_some hist sock.inode tci hd hget
      obtain ⟨hpos, _, hsbl, hrbl, _, _⟩ := hM sock.inode hd hget
      obtain ⟨hb1, hb2⟩ := hmono hd hget
      cases hsb : hd.send_bytes with
      | nil => rw [hsb] at hsbl; simp at hsbl; omega
      | cons sb0 sbt =>
        cases hrb : hd.recv_bytes with
        | nil => rw [hrb] at hrbl; simp at hrbl; omega
        | cons rb0 rbt =>
          rw [hsb] at hb1
          rw [hrb] at hb2
          simp only [List.headD_cons] at hb1 hb2
          exact ⟨_, _, genStep_intro cache hist sock tci sb0 rb0 sbt rbt stc hinfo
            (by rw [hentry, hsb]) (by rw [hentry, hrb]) hb1 hb2 hstc⟩

/-- C10 witness: the constructor invariant at a concrete snapshot, the
preservation applied across a concrete generation step, and a successful
concrete generation step on a fresh inode. -/
theorem history_series_aligned_witness :
    (SocketHistory.new HISTORY_RETENTION tciE).aligned ∧
    SocketHistory.aligned
      ⟨[0, 0], [0, 0], [0, 0], [0, 0], [0, 0], [0, 0]⟩ ∧
    (∃ hist' row, genStep [] [] sockEst = .ok (hist', row)) := by
  refine ⟨history_series_aligned.1 HISTORY_RETENTION tciE, ?_, ?_⟩
  · exact history_series_aligned.2.1 [] [] sockEst
      [(5, ⟨[0, 0], [0, 0], [0, 0], [0, 0], [0, 0], [0, 0]⟩)]
      ["127.0.0.1:1000", "127.0.0.1:2000", "ESTABLISHED", "0 bps", "0 bps", "0%"]
      (by intro k hd hget; simp [histGet] at hget) rfl
      5 ⟨[0, 0], [0, 0], [0, 0], [0, 0], [0, 0], [0, 0]⟩ rfl
  · exact history_series_aligned.2.2.2 [] [] sockEst tciE
      (by intro k hd hget; simp [histGet] at hget) rfl
      ⟨TCP_STATE.ESTABLISHED, rfl⟩
      (by intro hd hget; simp [histGet] at hget)

theorem rateTrace_length (prev : Nat) (l : List Nat) :
    (rateTrace prev l).length = l.length := by
  induction l generalizing prev with
  | nil => rfl
  | cons c cs ih => simp [rateTrace, ih]

theorem take_ret_snoc2 (l : List Nat) (a b : Nat) (h : l.length = 29) :
    (l ++ [a, b]).take HISTORY_RETENTION = l ++ [a] := by
  rw [List.take_append_eq_append_take,
      List.take_of_length_le (by rw [h]; decide), h]
  rfl

/-- C6: every history series stays within the retention window N = 30
after any number of refreshes, the newest sample sits at logical index 0,
and after exactly 30 ticks that update a single (fresh) inode every series
consists of exactly the 30 pushed samples — the sample recorded by the
seeding constructor has been evicted from every series. -/
theorem history_retention_window :
    (∀ (gs : List (List DiagWithInode)) (g0 : List DiagWithInode) (st : StatefulTable),
      runRefreshes gs (StatefulTable.new g0) = .ok st → MapBounded st.history) ∧
    (∀ (cache : NameCache) (hist : HistMap) (sock : DiagWithInode) (tci : TCPInfo)
        (hist' : HistMap) (row : List String),
      sock.info = some tci →
      genStep cache hist sock = .ok (hist', row) →
      ∃ hd', histGet hist' sock.inode = some hd' ∧
        hd'.send_bytes.head? = some tci.tcpi_bytes_sent ∧
        hd'.recv_bytes.head? = some tci.tcpi_bytes_received ∧
        hd'.packet_loss.head? = some (lossOf tci) ∧
        hd'.congestion_window.head? = some tci.tcpi_snd_cwnd) ∧
    (∀ (cache : NameCache) (inode : Nat) (src dst : SocketAddr)
        (tci1 : TCPInfo) (rest : List TCPInfo),
      rest.length = 29 →
      chainMono tci1.tcpi_bytes_sent tci1.tcpi_bytes_received rest = true →
      (∀ t ∈ tci1 :: rest, ∃ stc, TCP_STATE.from_u8 t.tcpi_state = .ok stc) →
      ∃ hist' hd',
        iterTicks cache ((tci1 :: rest).map (mkSock inode src dst)) [] = .ok hist' ∧
        histGet hist' inode = some hd' ∧
        hd'.send_bytes = ((tci1 :: rest).map TCPInfo.tcpi_bytes_sent).reverse ∧
        hd'.recv_bytes = ((tci1 :: rest).map TCPInfo.tcpi_bytes_received).reverse ∧
        hd'.packet_loss = ((tci1 :: rest).map lossOf).reverse ∧
        hd'.congestion_window = ((tci1 :: rest).map TCPInfo.tcpi_snd_cwnd).reverse ∧
        hd'.send_bps = (rateTrace tci1.tcpi_bytes_sent
          ((tci1 :: rest).map TCPInfo.tcpi_bytes_sent)).reverse ∧
        hd'.recv_bps = (rateTrace tci1.tcpi_bytes_received
          ((tci1 :: rest).map TCPInfo.tcpi_bytes_received)).reverse ∧
        hd'.send_bytes.length = HISTORY_RETENTION ∧
        hd'.recv_bytes.length = HISTORY_RETENTION ∧
        hd'.packet_loss.length = HISTORY_RETENTION ∧
        hd'.congestion_window.length = HISTORY_RETENTION ∧
        hd'.send_bps.length = HISTORY_RETENTION ∧
        hd'.recv_bps.length = HISTORY_RETENTION) := by
  refine ⟨?_, ?_, ?_⟩
  · intro gs g0 st h
    refine runRefreshes_MapBounded gs (StatefulTable.new g0) st ?_ h
    intro k hd hget
    simp [StatefulTable.new, histGet] at hget
  · intro cache hist sock tci hist' row hinfo h
    obtain ⟨tci', sb0, rb0, sbt, rbt, stc, hinfo', hsb, hrb, hle1, hle2, hstc, hh, hrow⟩ :=
      genStep_elim cache hist sock hist' row h
    rw [hinfo] at hinfo'
    obtain rfl := Option.some.inj hinfo'
    subst hh
    exact ⟨_, histGet_histSet_self _ _ _,
      (update_heads _ tci _ _).2.2.1, (update_heads _ tci _ _).2.2.2.1,
      (update_heads _ tci _ _).2.2.2.2.1, (update_heads _ tci _ _).2.2.2.2.2⟩
  · intro cache inode src dst tci1 rest hlen hmono hstates
    obtain ⟨stc1, hstc1⟩ := hstates tci1 (by simp)
    have hstep := genStep_intro cache [] (mkSock inode src dst tci1) tci1
      tci1.tcpi_bytes_sent tci1.tcpi_bytes_received [] [] stc1 rfl rfl rfl
      le_rfl le_rfl hstc1
    have hstep' : genStep cache [] (mkSock inode src dst tci1) = .ok
        (histSet [] inode ((SocketHistory.new HISTORY_RETENTION tci1).update tci1
            (tci1.tcpi_bytes_sent - tci1.tcpi_bytes_sent)
            (tci1.tcpi_bytes_received - tci1.tcpi_bytes_received)),
         rowOf cache (mkSock inode src dst tci1) stc1
           ((SocketHistory.new HISTORY_RETENTION tci1).update tci1
            (tci1.tcpi_bytes_sent - tci1.tcpi_bytes_sent)
            (tci1.tcpi_bytes_received - tci1.tcpi_bytes_received))) := hstep
    have hit1 : iterTicks cache ((tci1 :: rest).map (mkSock inode src dst)) [] =
        iterTicks cache (rest.map (mkSock inode src dst))
          (histSet [] inode ((SocketHistory.new HISTORY_RETENTION tci1).update tci1
            (tci1.tcpi_bytes_sent - tci1.tcpi_bytes_sent)
            (tci1.tcpi_bytes_received - tci1.tcpi_bytes_received))) := by
      simp only [List.map_cons, iterTicks, hstep']
    obtain ⟨hist', hiter, hd', hget', e1, e2, e3, e4, e5, e6⟩ :=
      iterTicks_entry cache inode src dst rest
        (histSet [] inode ((SocketHistory.new HISTORY_RETENTION tci1).update tci1
          (tci1.tcpi_bytes_sent - tci1.tcpi_bytes_sent)
          (tci1.tcpi_bytes_received - tci1.tcpi_bytes_received)))
        ((SocketHistory.new HISTORY_RETENTION tci1).update tci1
          (tci1.tcpi_bytes_sent - tci1.tcpi_bytes_sent)
          (tci1.tcpi_bytes_received - tci1.tcpi_bytes_received))
        tci1.tcpi_bytes_sent tci1.tcpi_bytes_received
        [tci1.tcpi_bytes_sent] [tci1.tcpi_bytes_received]
        (histGet_histSet_self _ _ _) rfl rfl (update_bounded _ _ _ _)
        hmono (fun t ht => hstates t (by simp [ht]))
    have e1' : hd'.send_bps = ((rateTrace tci1.tcpi_bytes_sent
        (rest.map TCPInfo.tcpi_bytes_sent)).reverse ++
        [(if tci1.tcpi_bytes_sent - tci1.tcpi_bytes_sent = tci1.tcpi_bytes_sent then 0
          else tci1.tcpi_bytes_sent - tci1.tcpi_bytes_sent), 0]).take
          HISTORY_RETENTION := e1
    have e2' : hd'.recv_bps = ((rateTrace tci1.tcpi_bytes_received
        (rest.map TCPInfo.tcpi_bytes_received)).reverse ++
        [(if tci1.tcpi_bytes_received - tci1.tcpi_bytes_received = tci1.tcpi_bytes_received
          then 0 else tci1.tcpi_bytes_received - tci1.tcpi_bytes_received), 0]).take
          HISTORY_RETENTION := e2
    have e3' : hd'.send_bytes = ((rest.map TCPInfo.tcpi_bytes_sent).reverse ++
        [tci1.tcpi_bytes_sent, tci1.tcpi_bytes_sent]).take HISTORY_RETENTION := e3
    have e4' : hd'.recv_bytes = ((rest.map TCPInfo.tcpi_bytes_received).reverse ++
        [tci1.tcpi_bytes_received, tci1.tcpi_bytes_received]).take HISTORY_RETENTION := e4
    have e5' : hd'.packet_loss = ((rest.map lossOf).reverse ++
        [lossOf tci1, 0]).take HISTORY_RETENTION := e5
    have e6' : hd'.congestion_window = ((rest.map TCPInfo.tcpi_snd_cwnd).reverse ++
        [tci1.tcpi_snd_cwnd, 0]).take HISTORY_RETENTION := e6
    rw [take_ret_snoc2 _ _ _ (by simp [rateTrace_length, hlen])] at e1'
    rw [take_ret_snoc2 _ _ _ (by simp [rateTrace_length, hlen])] at e2'
    rw [take_ret_snoc2 _ _ _ (by simp [hlen])] at e3'
    rw [take_ret_snoc2 _ _ _ (by simp [hlen])] at e4'
    rw [take_ret_snoc2 _ _ _ (by simp [hlen])] at e5'
    rw [take_ret_snoc2 _ _ _ (by simp [hlen])] at e6'
    refine ⟨hist', hd', hit1.trans hiter, hget', ?_, ?_, ?_, ?_, ?_, ?_, ?_, ?_, ?_, ?_, ?_, ?_⟩
    · rw [List.map_cons, List.reverse_cons]
      exact e3'
    · rw [List.map_cons, List.reverse_cons]
      exact e4'
    · rw [List.map_cons, List.reverse_cons]
      exact e5'
    · rw [List.map_cons, List.reverse_cons]
      exact e6'
    · rw [List.map_cons]
      simp only [rateTrace]
      rw [List.reverse_cons]
      exact e1'
    · rw [List.map_cons]
      simp only [rateTrace]
      rw [List.reverse_cons]
      exact e2'
    · rw [e3']
      simp [hlen]
      decide
    · rw [e4']
      simp [hlen]
      decide
    · rw [e5']
      simp [hlen]
      decide
    · rw [e6']
      simp [hlen]
      decide
    · rw [e1']
      simp [rateTrace_length, hlen]
      decide
    · rw [e2']
      simp [rateTrace_length, hlen]
      decide

/-- C6 witness: the engine invariant after one concrete refresh, the
newest-at-index-0 facts across a concrete generation step, and the
eviction statement for thirty concrete ticks of one inode. -/
theorem history_retention_window_witness :
    SocketHistory.bounded ⟨[0, 0], [0, 0], [0, 0], [0, 0], [0, 0], [0, 0]⟩ ∧
    (∃ hd', histGet [(5, (SocketHistory.new HISTORY_RETENTION tciE).update tciE 0 0)]
        sockEst.inode = some hd' ∧
      hd'.send_bytes.head? = some tciE.tcpi_bytes_sent ∧
      hd'.recv_bytes.head? = some tciE.tcpi_bytes_received ∧
      hd'.packet_loss.head? = some (lossOf tciE) ∧
      hd'.congestion_window.head? = some tciE.tcpi_snd_cwnd) ∧
    (∃ hist' hd',
      iterTicks [] ((tciE :: List.replicate 29 tciE).map
        (mkSock 5 ⟨IpAddr.v4 [127, 0, 0, 1], 1000⟩ ⟨IpAddr.v4 [127, 0, 0, 1], 2000⟩)) [] =
          .ok hist' ∧
      histGet hist' 5 = some hd' ∧
      hd'.send_bytes = ((tciE :: List.replicate 29 tciE).map TCPInfo.tcpi_bytes_sent).reverse ∧
      hd'.recv_bytes =
        ((tciE :: List.replicate 29 tciE).map TCPInfo.tcpi_bytes_received).reverse ∧
      hd'.packet_loss = ((tciE :: List.replicate 29 tciE).map lossOf).reverse ∧
      hd'.congestion_window =
        ((tciE :: List.replicate 29 tciE).map TCPInfo.tcpi_snd_cwnd).reverse ∧
      hd'.send_bps = (rateTrace tciE.tcpi_bytes_sent
        ((tciE :: List.replicate 29 tciE).map TCPInfo.tcpi_bytes_sent)).reverse ∧
      hd'.recv_bps = (rateTrace tciE.tcpi_bytes_received
        ((tciE :: List.replicate 29 tciE).map TCPInfo.tcpi_bytes_received)).reverse ∧
      hd'.send_bytes.length = HISTORY_RETENTION ∧
      hd'.recv_bytes.length = HISTORY_RETENTION ∧
      hd'.packet_loss.length = HISTORY_RETENTION ∧
      hd'.congestion_window.length = HISTORY_RETENTION ∧
      hd'.send_bps.length = HISTORY_RETENTION ∧
      hd'.recv_bps.length = HISTORY_RETENTION) := by
  refine ⟨?_, ?_, ?_⟩
  · exact history_retention_window.1 [[]] [sockEst]
      { selected := none,
        items := [["127.0.0.1:1000", "127.0.0.1:2000", "ESTABLISHED", "0 bps", "0 bps", "0%"]],
        sockets := [],
        history := [(5, ⟨[0, 0], [0, 0], [0, 0], [0, 0], [0, 0], [0, 0]⟩)],
        name_lookups := [] } rfl
      5 ⟨[0, 0], [0, 0], [0, 0], [0, 0], [0, 0], [0, 0]⟩ rfl
  · exact history_retention_window.2.1 [] [] sockEst tciE
      [(5, (SocketHistory.new HISTORY_RETENTION tciE).update tciE 0 0)]
      ["127.0.0.1:1000", "127.0.0.1:2000", "ESTABLISHED", "0 bps", "0 bps", "0%"]
      rfl rfl
  · exact history_retention_window.2.2 [] 5
      ⟨IpAddr.v4 [127, 0, 0, 1], 1000⟩ ⟨IpAddr.v4 [127, 0, 0, 1], 2000⟩
      tciE (List.replicate 29 tciE) (by simp) (by decide)
      (by
        intro t ht
        rcases List.mem_cons.mp ht with rfl | hm
        · exact ⟨TCP_STATE.ESTABLISHED, rfl⟩
        · rw [List.eq_of_mem_replicate hm]
          exact ⟨TCP_STATE.ESTABLISHED, rfl⟩)

/-- C7: a socket whose stats snapshot reports the LISTEN code (10) is never
in the list `gather_sockets` returns — nor is any message without a stats
snapshot — and consequently no display row generated from such a list ever
carries "LISTEN" in its state column. -/
theorem no_listen_socket_in_rows :
    (∀ (openOk sendOk : Bool) (chan : List RecvItem) (socks : List DiagWithInode),
      gather_sockets openOk sendOk chan = .ok socks →
      ∀ s ∈ socks, ∃ i, s.info = some i ∧ i.tcpi_state ≠ 10) ∧
    (∀ (cache : NameCache) (hist hist' : HistMap) (socks : List DiagWithInode)
        (rows : List (List String)),
      (∀ s ∈ socks, ∃ i, s.info = some i ∧ i.tcpi_state ≠ 10) →
      gen_socket_string_vector cache hist socks = .ok (hist', rows) →
      ∀ row ∈ rows, row.get? 2 ≠ some "LISTEN") :=
  ⟨gather_sockets_filter,
   fun cache hist hist' socks rows hP h =>
     gen_rows_no_listen cache socks hist hist' rows hP h⟩

/-- C7 witness: a dump containing one LISTEN message and one ESTABLISHED
message keeps only the latter, and the row generated for it does not show
"LISTEN". -/
theorem no_listen_socket_in_rows_witness :
    (∃ i, sockDecoded.info = some i ∧ i.tcpi_state ≠ 10) ∧
    (["0.0.0.0:80", "0.0.0.0:0", "ESTABLISHED", "0 bps", "0 bps", "0%"] :
        List String).get? 2 ≠ some "LISTEN" := by
  constructor
  · exact no_listen_socket_in_rows.1 true true [.msg msgL, .msg msgE, .done]
      [sockDecoded] rfl sockDecoded (by simp)
  · exact no_listen_socket_in_rows.2 [] []
      [(5, (SocketHistory.new HISTORY_RETENTION tciE).update tciE 0 0)]
      [sockDecoded]
      [["0.0.0.0:80", "0.0.0.0:0", "ESTABLISHED", "0 bps", "0 bps", "0%"]]
      (by
        intro s hs
        simp only [List.mem_singleton] at hs
        subst hs
        exact ⟨tciE, rfl, by decide⟩) rfl
      ["0.0.0.0:80", "0.0.0.0:0", "ESTABLISHED", "0 bps", "0 bps", "0%"] (by simp)
